import Mathlib

/-!
Verification of the batch AVIF-to-PNG conversion core
(`internal/converter/converter.go`).

The Go code is shallowly embedded:

* Path-string helpers (`filepath.Ext`, `filepath.Base`, `filepath.Join`,
  `strings.TrimSuffix`) are translated to executable Lean functions over
  `String` / `List Char`.  `filepath.Join` is modelled without the final
  `Clean` normalisation; joined paths are used as opaque keys, and both
  sides of every comparison are built by the same join, so the
  normalisation is irrelevant here.
* The input directory tree seen by the collector is an explicit `FTree`
  value; a directory node carries an optional read error, modelling an
  `os.ReadDir` / `filepath.Walk` I/O failure on that directory.  Child
  lists are stored in the (sorted) order that `os.ReadDir` and
  `filepath.Walk` present entries, so list order is traversal order.
* The filesystem state touched by a conversion is an explicit `FS`
  record: an oracle for opening+decoding each source path, the set of
  existing output files with abstract contents, the set of existing
  directories, and failure oracles for `os.MkdirAll`, `os.Create` and
  `png.Encode`.  `os.Stat` on a candidate output path is modelled as a
  lookup among the recorded output files.
* `fmt.Printf` progress output is not modelled; instead every invocation
  of the single-file conversion made by the batch loop is recorded in a
  `Call` trace so that the arguments of those invocations are visible.
-/

set_option linter.unusedVariables false

namespace Avif2png

/-! ### Go standard-library path helpers, as used by the converter -/

/-- Whether `pre` is an initial segment of `s`, character by
character. -/
def leadsWith : List Char → List Char → Bool
  | [], _ => true
  | _ :: _, [] => false
  | c :: cs, d :: ds => c = d && leadsWith cs ds

/-- Model of `strings.HasPrefix s pre`. -/
def strStartsWith (s pre : String) : Bool :=
  leadsWith pre.data s.data

/-- Model of `strings.ToLower` as applied to extensions in the converter: Go
lowercases Unicode, of which only the ASCII range matters for the
`.avif`/`.AVIF` comparison made by the code. -/
def toLowerStr (s : String) : String :=
  ⟨s.data.map Char.toLower⟩

/-- Model of `strings.TrimSuffix s suffix`: drop `suffix` from the end of `s`
when it is a suffix, otherwise return `s` unchanged. -/
def trimSuffix (s suffix : String) : String :=
  if suffix.data.isSuffixOf s.data then
    ⟨s.data.take (s.data.length - suffix.data.length)⟩
  else s

/-- Helper for `filepath.Ext`: scan the reversed character list; stop
with `""` at a path separator, or return the extension (final dot
included) at the first dot found. -/
def extAux : List Char → List Char → String
  | [], _ => ""
  | c :: rest, acc =>
    if c = '/' then ""
    else if c = '.' then ⟨'.' :: acc⟩
    else extAux rest (c :: acc)

/-- Model of `filepath.Ext p`: the suffix of the final path element beginning at
its final dot, or `""` when the final element has no dot. -/
def filepathExt (p : String) : String :=
  extAux p.data.reverse []

/-- Model of `filepath.Base p`: strip trailing slashes and return everything
after the final remaining slash; `"."` for the empty path, `"/"` for a
path made of slashes only. -/
def filepathBase (p : String) : String :=
  if p.data = [] then "."
  else
    let r := p.data.reverse.dropWhile (fun c => c = '/')
    if r = [] then "/"
    else ⟨(r.takeWhile (fun c => c ≠ '/')).reverse⟩

/-- Model of `filepath.Join dir name` for the two-argument uses in the converter
(without the trailing `Clean` normalisation). -/
def filepathJoin (dir name : String) : String :=
  if dir = "" then name
  else if name = "" then dir
  else dir ++ "/" ++ name

/-! ### The input directory tree seen by the collector -/

/-- A directory tree.  A `dir` node carries an optional read error,
modelling an I/O failure when that directory's entries are listed
(`os.ReadDir` non-recursively, `readDirNames` inside `filepath.Walk`
recursively).  Children appear in listing order. -/
inductive FTree where
  | file (name : String)
  | dir (name : String) (readErr : Option String) (children : List FTree)
deriving Repr

/-- The entry's own (base) name, as `info.Name()` returns it. -/
def FTree.name : FTree → String
  | .file n => n
  | .dir n _ _ => n

mutual

/-- The recursive branch of `collectAVIFFiles`: `filepath.Walk` with the
walk function of converter.go lines 40-61.  Directories are never
candidates (the `IsDir` check fires before the hidden-name check, so a
hidden directory is still descended into); hidden files are skipped;
files whose extension lowercases to `.avif` are collected; a read error
on any directory aborts the whole walk with that error. -/
def walkCollect : String → FTree → Except String (List String)
  | path, .file name =>
    if strStartsWith name "." then .ok []
    else if toLowerStr (filepathExt name) = ".avif" then .ok [path]
    else .ok []
  | _, .dir _ (some e) _ => .error e
  | path, .dir _ none children => walkChildren path children

/-- Walk the children of a directory in listing order, concatenating
collected paths and aborting at the first error. -/
def walkChildren : String → List FTree → Except String (List String)
  | _, [] => .ok []
  | path, c :: rest => do
    let xs ← walkCollect (filepathJoin path c.name) c
    let ys ← walkChildren path rest
    pure (xs ++ ys)

end

/-- Model of `collectAVIFFiles rootDir root recursive` (converter.go lines
36-89): scan `root` (the tree rooted at path `rootDir`) for AVIF files.
Non-recursively, only immediate non-directory, non-hidden children with
a case-insensitive `.avif` extension are returned, joined onto
`rootDir`; an `os.ReadDir` failure is wrapped as
`failed to read directory: _`.  Recursively, `filepath.Walk` is used
(see `walkCollect`). -/
def collectAVIFFiles (rootDir : String) (root : FTree) (recursive : Bool) :
    Except String (List String) :=
  if recursive then
    walkCollect rootDir root
  else
    match root with
    | .file _ => .error "failed to read directory: not a directory"
    | .dir _ (some e) _ => .error ("failed to read directory: " ++ e)
    | .dir _ none entries =>
      .ok (entries.filterMap (fun entry =>
        match entry with
        | .dir _ _ _ => none
        | .file name =>
          if strStartsWith name "." then none
          else if toLowerStr (filepathExt name) = ".avif" then
            some (filepathJoin rootDir name)
          else none))

/-! ### The filesystem state touched by a single conversion -/

/-- What happens when a given source path is opened and decoded
(`os.Open` then `image.Decode`). -/
inductive SourceOutcome where
  | openErr (msg : String)
  | decodeErr (msg : String)
  | image (img : Nat)
deriving Repr, DecidableEq

/-- The error value of a single conversion: the shared `ErrFileExists`
sentinel, or any other error carrying its message. -/
inductive ConvError where
  | fileExists
  | other (msg : String)
deriving Repr, DecidableEq

instance {ε α : Type} [DecidableEq ε] [DecidableEq α] : DecidableEq (Except ε α)
  | .error a, .error b =>
    if h : a = b then .isTrue (by rw [h])
    else .isFalse (fun hh => by cases hh; exact h rfl)
  | .error _, .ok _ => .isFalse (fun hh => by cases hh)
  | .ok _, .error _ => .isFalse (fun hh => by cases hh)
  | .ok a, .ok b =>
    if h : a = b then .isTrue (by rw [h])
    else .isFalse (fun hh => by cases hh; exact h rfl)


/-- Look a path up among the existing output files. -/
def lookupOut (path : String) : List (String × Nat) → Option Nat
  | [] => none
  | (q, v) :: rest => if q = path then some v else lookupOut path rest

/-- Overwrite the contents recorded for `path` (used for the bytes
written by `png.Encode` into the file just created). -/
def setOut (path : String) (v : Nat) : List (String × Nat) → List (String × Nat)
  | [] => []
  | (q, w) :: rest =>
    if q = path then (q, v) :: rest else (q, w) :: setOut path v rest

/-- Model of `os.Create path`: an empty file (contents `0`) now exists at `path`;
an already-existing file would be truncated to empty. -/
def createOut (path : String) (fsFiles : List (String × Nat)) : List (String × Nat) :=
  if (lookupOut path fsFiles).isSome then setOut path 0 fsFiles
  else (path, 0) :: fsFiles

/-- Split a character list at every slash (the pieces, slash-free, in
order; empty pieces kept, as `strings.Split` keeps them). -/
def splitSlash : List Char → List Char → List (List Char)
  | [], acc => [acc.reverse]
  | c :: rest, acc =>
    if c = '/' then acc.reverse :: splitSlash rest []
    else splitSlash rest (c :: acc)

/-- Rejoin slash-separated pieces. -/
def joinSlash : List (List Char) → List Char
  | [] => []
  | [x] => x
  | x :: rest => x ++ '/' :: joinSlash rest

/-- Every slash-boundary prefix of `p`, innermost last; these are the
directories `os.MkdirAll p` ensures exist. -/
def parentPrefixes (p : String) : List String :=
  let parts := splitSlash p.data []
  (List.range parts.length).map (fun i => ⟨joinSlash (parts.take (i + 1))⟩)

/-- Model of `os.MkdirAll dir`: add `dir` and all its missing ancestors to the
set of existing directories. -/
def mkdirAllDirs (dir : String) (dirs : List String) : List String :=
  dirs ++ (parentPrefixes dir).filter (fun d => ¬ dirs.contains d)

/-- The filesystem state and failure oracles a conversion runs against.
`source` is what opening+decoding each path yields; `outFiles` are the
existing output files (path, abstract contents); `dirs` the existing
directories; `mkdirAllErr`, `createErr`, `encodeErr` give the error, if
any, of `os.MkdirAll` on a directory, `os.Create` on a path, and
`png.Encode` of a decoded image. -/
structure FS where
  source : String → SourceOutcome
  outFiles : List (String × Nat)
  dirs : List String
  mkdirAllErr : String → Option String
  createErr : String → Option String
  encodeErr : Nat → Option String

/-- The output path of converter.go lines 181-182:
`outputDir / (TrimSuffix(Base inputPath, Ext inputPath) ++ ".png")`. -/
def outPathOf (outputDir inputPath : String) : String :=
  filepathJoin outputDir (trimSuffix (filepathBase inputPath) (filepathExt inputPath) ++ ".png")

/-- Model of `AVIFToPNG inputPath outputDir verbose` (converter.go lines
157-206), as a state transformer over `FS`.  Open+decode the source;
on success run `os.MkdirAll outputDir`; compute the flattened output
path; return `ErrFileExists` if `os.Stat` finds it occupied (before any
create); otherwise `os.Create` it, `png.Encode` into it, and report
success.  The `verbose` flag only controls progress printing, which is
not modelled. -/
def AVIFToPNG (inputPath outputDir : String) (verbose : Bool) (fs : FS) :
    Except ConvError Unit × FS :=
  match fs.source inputPath with
  | .openErr m => (.error (.other ("failed to open input file: " ++ m)), fs)
  | .decodeErr m => (.error (.other ("failed to decode AVIF image: " ++ m)), fs)
  | .image img =>
    match fs.mkdirAllErr outputDir with
    | some m => (.error (.other ("failed to create output directory: " ++ m)), fs)
    | none =>
      let fs1 : FS := { fs with dirs := mkdirAllDirs outputDir fs.dirs }
      let outputPath := outPathOf outputDir inputPath
      if (lookupOut outputPath fs1.outFiles).isSome then
        (.error .fileExists, fs1)
      else
        match fs1.createErr outputPath with
        | some m => (.error (.other ("failed to create output file: " ++ m)), fs1)
        | none =>
          let fs2 : FS := { fs1 with outFiles := createOut outputPath fs1.outFiles }
          match fs2.encodeErr img with
          | some m => (.error (.other ("failed to encode PNG: " ++ m)), fs2)
          | none => (.ok (), { fs2 with outFiles := setOut outputPath img fs2.outFiles })

/-! ### The batch converter -/

/-- One `(path, error)` pair of the batch result's error list. -/
structure FileError where
  filePath : String
  error : String
deriving Repr, DecidableEq

/-- The aggregate outcome of one batch invocation. -/
structure ConversionResult where
  totalFiles : Nat
  successful : Nat
  skipped : Nat
  failed : Nat
  errors : List FileError
deriving Repr, DecidableEq

/-- One invocation of the single-file conversion made by the batch
loop, recording the arguments it was given. -/
structure Call where
  inputPath : String
  outputDir : String
  verbose : Bool
deriving Repr, DecidableEq

/-- The per-file loop of `ConvertDirectory` (converter.go lines
120-151): for each collected path call
`AVIFToPNG filePath outputDir false`, then classify the outcome —
no error increments `successful`; `ErrFileExists` increments `skipped`;
any other error increments `failed` and appends `(path, error)` to
`errors` — and continue with the next file.  Each invocation is also
recorded in the call trace. -/
def processFiles : List String → String → ConversionResult → FS → List Call →
    ConversionResult × FS × List Call
  | [], _, r, fs, tr => (r, fs, tr)
  | p :: rest, outputDir, r, fs, tr =>
    let step := AVIFToPNG p outputDir false fs
    let r1 :=
      match step.1 with
      | .ok _ => { r with successful := r.successful + 1 }
      | .error .fileExists => { r with skipped := r.skipped + 1 }
      | .error (.other m) =>
        { r with failed := r.failed + 1, errors := r.errors ++ [⟨p, m⟩] }
    processFiles rest outputDir r1 step.2 (tr ++ [⟨p, outputDir, false⟩])

/-- Model of `ConvertDirectory inputDir outputDir recursive verbose`
(converter.go lines 93-154) over the tree `input` rooted at `inputDir`
and filesystem state `fs`.  Collect the AVIF files; a collection error
is wrapped as `failed to scan directory: _` and returned.  Otherwise
build the result with `totalFiles` fixed; return it immediately when no
file was found; else run the per-file loop.  The returned triple is
(result or error, final filesystem state, trace of single-file
invocations). -/
def ConvertDirectory (inputDir : String) (input : FTree) (outputDir : String)
    (recursive verbose : Bool) (fs : FS) :
    Except String ConversionResult × FS × List Call :=
  match collectAVIFFiles inputDir input recursive with
  | .error e => (.error ("failed to scan directory: " ++ e), fs, [])
  | .ok avifFiles =>
    let result : ConversionResult :=
      { totalFiles := avifFiles.length, successful := 0, skipped := 0
        failed := 0, errors := [] }
    if result.totalFiles = 0 then (.ok result, fs, [])
    else
      let t := processFiles avifFiles outputDir result fs []
      (.ok t.1, t.2.1, t.2.2)

/-- The result record as `ConvertDirectory` initialises it after a
successful collection. -/
def initResult (files : List String) : ConversionResult :=
  { totalFiles := files.length, successful := 0, skipped := 0, failed := 0, errors := [] }

theorem initResult_totalFiles (files : List String) :
    (initResult files).totalFiles = files.length := rfl

theorem initResult_successful (files : List String) :
    (initResult files).successful = 0 := rfl

theorem initResult_skipped (files : List String) :
    (initResult files).skipped = 0 := rfl

theorem initResult_failed (files : List String) :
    (initResult files).failed = 0 := rfl

theorem initResult_errors (files : List String) :
    (initResult files).errors = [] := rfl

/-- Reduction of `ConvertDirectory` on a successful, nonempty
collection: it is the per-file loop started from `initResult`. -/
theorem ConvertDirectory_eq_of_ok (inputDir outputDir : String) (input : FTree)
    (recursive verbose : Bool) (fs : FS) (files : List String)
    (hc : collectAVIFFiles inputDir input recursive = .ok files)
    (hne : ¬ files.length = 0) :
    ConvertDirectory inputDir input outputDir recursive verbose fs
      = (.ok (processFiles files outputDir (initResult files) fs []).1,
         (processFiles files outputDir (initResult files) fs []).2.1,
         (processFiles files outputDir (initResult files) fs []).2.2) := by
  simp only [ConvertDirectory, hc]
  split
  · next hzero => exact absurd hzero hne
  · rfl

/-- Reduction of `ConvertDirectory` on an empty collection: immediate
return with zero counts, no state change, no invocation. -/
theorem convertDirectory_nil_collect (inputDir outputDir : String) (input : FTree)
    (recursive verbose : Bool) (fs : FS)
    (h : collectAVIFFiles inputDir input recursive = .ok []) :
    ConvertDirectory inputDir input outputDir recursive verbose fs
      = (.ok { totalFiles := 0, successful := 0, skipped := 0, failed := 0, errors := [] },
         fs, []) := by
  simp [ConvertDirectory, h]

/-! ### Derived classification predicates over an initial state -/

/-- The decoded image of a source path, when opening and decoding it
succeeds. -/
def decodeResult (fs : FS) (p : String) : Option Nat :=
  match fs.source p with
  | .image i => some i
  | _ => none

/-- Whether opening and decoding the source path succeeds. -/
def sourceDecodes (fs : FS) (p : String) : Bool :=
  (decodeResult fs p).isSome

/-- A source file that converts cleanly against output directory
`outputDir`: it decodes, and neither `os.MkdirAll`, `os.Create` on its
output path, nor `png.Encode` of its image fails. -/
def convertsCleanly (fs : FS) (outputDir p : String) : Bool :=
  match fs.source p with
  | .image img =>
    (fs.mkdirAllErr outputDir).isNone
      && (fs.createErr (outPathOf outputDir p)).isNone
      && (fs.encodeErr img).isNone
  | _ => false

/-- Whether an `Except` is a success. -/
def exceptOk {ε α : Type} : Except ε α → Bool
  | .ok _ => true
  | .error _ => false

/-! ### Single-step lemmas about `AVIFToPNG` -/

theorem setOut_cons_self (path : String) (v w : Nat) (l : List (String × Nat)) :
    setOut path v ((path, w) :: l) = (path, v) :: l := by
  simp [setOut]

/-- A conversion never changes the decode outcome of any source, nor
the `MkdirAll`/`Create`/`Encode` failure oracles. -/
theorem AVIFToPNG_frame (p out : String) (v : Bool) (fs : FS) :
    (AVIFToPNG p out v fs).2.source = fs.source ∧
    (AVIFToPNG p out v fs).2.mkdirAllErr = fs.mkdirAllErr ∧
    (AVIFToPNG p out v fs).2.createErr = fs.createErr ∧
    (AVIFToPNG p out v fs).2.encodeErr = fs.encodeErr := by
  unfold AVIFToPNG
  cases hs : fs.source p with
  | openErr m => simp
  | decodeErr m => simp
  | image img =>
    cases hm : fs.mkdirAllErr out with
    | some m => simp
    | none =>
      cases ho : (lookupOut (outPathOf out p) fs.outFiles).isSome with
      | true => simp [ho]
      | false =>
        simp only [ho, Bool.false_eq_true, if_false]
        cases hc : fs.createErr (outPathOf out p) with
        | some m => simp
        | none =>
          cases he : fs.encodeErr img <;> simp [he]

/-- When the source fails to open or decode, the conversion returns an
`other` error and leaves the filesystem state entirely unchanged. -/
theorem AVIFToPNG_not_decode (p out : String) (v : Bool) (fs : FS)
    (h : sourceDecodes fs p = false) :
    ∃ m, AVIFToPNG p out v fs = (.error (.other m), fs) := by
  unfold AVIFToPNG
  cases hs : fs.source p <;>
    simp [sourceDecodes, decodeResult, hs] at h ⊢

/-- A clean conversion against a free output path succeeds, writing the
decoded image at the flattened output path and running `MkdirAll`. -/
theorem AVIFToPNG_clean (p out : String) (v : Bool) (fs : FS)
    (h : convertsCleanly fs out p = true)
    (hfree : lookupOut (outPathOf out p) fs.outFiles = none) :
    ∃ img, fs.source p = .image img ∧
      AVIFToPNG p out v fs =
        (.ok (), { fs with dirs := mkdirAllDirs out fs.dirs
                           outFiles := (outPathOf out p, img) :: fs.outFiles }) := by
  cases hs : fs.source p with
  | openErr m => simp [convertsCleanly, hs] at h
  | decodeErr m => simp [convertsCleanly, hs] at h
  | image img =>
    simp only [convertsCleanly, hs, Bool.and_eq_true, Option.isNone_iff_eq_none] at h
    obtain ⟨⟨hm, hc⟩, he⟩ := h
    refine ⟨img, rfl, ?_⟩
    simp [AVIFToPNG, hs, hm, hfree, hc, createOut, he, setOut_cons_self]

/-- When the source decodes, `MkdirAll` succeeds and the output path is
already occupied, the conversion returns `ErrFileExists`; the only
state change is the (idempotent) directory creation — in particular the
output files, the pre-existing destination included, are untouched. -/
theorem AVIFToPNG_exists (p out : String) (v : Bool) (fs : FS)
    (hd : sourceDecodes fs p = true)
    (hm : fs.mkdirAllErr out = none)
    (hocc : (lookupOut (outPathOf out p) fs.outFiles).isSome = true) :
    AVIFToPNG p out v fs =
      (.error .fileExists, { fs with dirs := mkdirAllDirs out fs.dirs }) := by
  cases hs : fs.source p with
  | openErr m => simp [sourceDecodes, decodeResult, hs] at hd
  | decodeErr m => simp [sourceDecodes, decodeResult, hs] at hd
  | image img => simp [AVIFToPNG, hs, hm, hocc]

/-- A conversion reporting success implies: the source decoded,
`MkdirAll` succeeded, and afterwards the flattened output path is
occupied. -/
theorem AVIFToPNG_ok_inv (p out : String) (v : Bool) (fs : FS)
    (h : (AVIFToPNG p out v fs).1 = .ok ()) :
    sourceDecodes fs p = true ∧ fs.mkdirAllErr out = none ∧
    (lookupOut (outPathOf out p) (AVIFToPNG p out v fs).2.outFiles).isSome = true := by
  cases hs : fs.source p with
  | openErr m => simp [AVIFToPNG, hs] at h
  | decodeErr m => simp [AVIFToPNG, hs] at h
  | image img =>
    cases hm : fs.mkdirAllErr out with
    | some m => simp [AVIFToPNG, hs, hm] at h
    | none =>
      cases hl : lookupOut (outPathOf out p) fs.outFiles with
      | some w => simp [AVIFToPNG, hs, hm, hl] at h
      | none =>
        cases hc : fs.createErr (outPathOf out p) with
        | some m => simp [AVIFToPNG, hs, hm, hl, hc] at h
        | none =>
          cases he : fs.encodeErr img with
          | some m => simp [AVIFToPNG, hs, hm, hl, hc, he] at h
          | none =>
            refine ⟨by simp [sourceDecodes, decodeResult, hs], rfl, ?_⟩
            simp [AVIFToPNG, hs, hm, hl, hc, he, createOut, setOut_cons_self, lookupOut]

/-- A conversion reporting `ErrFileExists` implies the same three
facts. -/
theorem AVIFToPNG_fileExists_inv (p out : String) (v : Bool) (fs : FS)
    (h : (AVIFToPNG p out v fs).1 = .error .fileExists) :
    sourceDecodes fs p = true ∧ fs.mkdirAllErr out = none ∧
    (lookupOut (outPathOf out p) (AVIFToPNG p out v fs).2.outFiles).isSome = true := by
  cases hs : fs.source p with
  | openErr m => simp [AVIFToPNG, hs] at h
  | decodeErr m => simp [AVIFToPNG, hs] at h
  | image img =>
    cases hm : fs.mkdirAllErr out with
    | some m => simp [AVIFToPNG, hs, hm] at h
    | none =>
      cases hl : lookupOut (outPathOf out p) fs.outFiles with
      | some w =>
        refine ⟨by simp [sourceDecodes, decodeResult, hs], rfl, ?_⟩
        simp [AVIFToPNG, hs, hm, hl]
      | none =>
        cases hc : fs.createErr (outPathOf out p) with
        | some m => simp [AVIFToPNG, hs, hm, hl, hc] at h
        | none =>
          cases he : fs.encodeErr img with
          | some m => simp [AVIFToPNG, hs, hm, hl, hc, he] at h
          | none => simp [AVIFToPNG, hs, hm, hl, hc, he] at h

/-- A conversion never removes or rewrites an existing output file. -/
theorem AVIFToPNG_outFiles_mono (p out : String) (v : Bool) (fs : FS) (q : String) (w : Nat)
    (h : lookupOut q fs.outFiles = some w) :
    lookupOut q (AVIFToPNG p out v fs).2.outFiles = some w := by
  cases hs : fs.source p with
  | openErr m => simp [AVIFToPNG, hs, h]
  | decodeErr m => simp [AVIFToPNG, hs, h]
  | image img =>
    cases hm : fs.mkdirAllErr out with
    | some m => simp [AVIFToPNG, hs, hm, h]
    | none =>
      cases hl : lookupOut (outPathOf out p) fs.outFiles with
      | some w2 => simp [AVIFToPNG, hs, hm, hl, h]
      | none =>
        have hne : outPathOf out p ≠ q := by
          intro he; rw [he, h] at hl; cases hl
        cases hc : fs.createErr (outPathOf out p) with
        | some m => simp [AVIFToPNG, hs, hm, hl, hc, h]
        | none =>
          cases he : fs.encodeErr img with
          | some m => simp [AVIFToPNG, hs, hm, hl, hc, he, createOut, lookupOut, hne, h]
          | none =>
            simp [AVIFToPNG, hs, hm, hl, hc, he, createOut, setOut_cons_self, lookupOut, hne, h]

/-- A file that converts cleanly in particular decodes. -/
theorem convertsCleanly_decodes (fs : FS) (out p : String)
    (h : convertsCleanly fs out p = true) : sourceDecodes fs p = true := by
  cases hs : fs.source p <;>
    simp [convertsCleanly, sourceDecodes, decodeResult, hs] at h ⊢

/-! ### Invariants of the per-file loop -/

/-- Unconditional bookkeeping of the loop: `totalFiles` is never
touched; exactly one of the three outcome counters is bumped per file;
errors grow in lockstep with `failed`; and the loop invokes the
single-file conversion once per file, as `(path, outputDir, false)`,
in order. -/
theorem processFiles_counts (out : String) (files : List String) :
    ∀ (fs : FS) (r : ConversionResult) (tr : List Call),
      (processFiles files out r fs tr).1.totalFiles = r.totalFiles ∧
      (processFiles files out r fs tr).1.successful
          + (processFiles files out r fs tr).1.skipped
          + (processFiles files out r fs tr).1.failed
        = r.successful + r.skipped + r.failed + files.length ∧
      (processFiles files out r fs tr).1.errors.length + r.failed
        = r.errors.length + (processFiles files out r fs tr).1.failed ∧
      (processFiles files out r fs tr).2.2
        = tr ++ files.map (fun p => ⟨p, out, false⟩) := by
  induction files with
  | nil => intro fs r tr; simp [processFiles]
  | cons p rest ih =>
    intro fs r tr
    simp only [processFiles]
    cases hres : (AVIFToPNG p out false fs).1 with
    | ok u =>
      obtain ⟨h1, h2, h3, h4⟩ :=
        ih (AVIFToPNG p out false fs).2
          { r with successful := r.successful + 1 } (tr ++ [⟨p, out, false⟩])
      cases u
      refine ⟨by simpa using h1, ?_, ?_, ?_⟩
      · simp only [List.length_cons]; simp at h2 ⊢; omega
      · simp at h3 ⊢; omega
      · simp [h4]
    | error e =>
      cases e with
      | fileExists =>
        obtain ⟨h1, h2, h3, h4⟩ :=
          ih (AVIFToPNG p out false fs).2
            { r with skipped := r.skipped + 1 } (tr ++ [⟨p, out, false⟩])
        refine ⟨by simpa using h1, ?_, ?_, ?_⟩
        · simp only [List.length_cons]; simp at h2 ⊢; omega
        · simp at h3 ⊢; omega
        · simp [h4]
      | other m =>
        obtain ⟨h1, h2, h3, h4⟩ :=
          ih (AVIFToPNG p out false fs).2
            { r with failed := r.failed + 1, errors := r.errors ++ [⟨p, m⟩] }
            (tr ++ [⟨p, out, false⟩])
        refine ⟨by simpa using h1, ?_, ?_, ?_⟩
        · simp only [List.length_cons]; simp at h2 ⊢; omega
        · simp at h3 ⊢; omega
        · simp [h4]

/-- The loop never loses an existing output file. -/
theorem processFiles_outFiles_mono (out : String) (files : List String) :
    ∀ (fs : FS) (r : ConversionResult) (tr : List Call) (q : String) (w : Nat),
      lookupOut q fs.outFiles = some w →
      lookupOut q (processFiles files out r fs tr).2.1.outFiles = some w := by
  induction files with
  | nil => intro fs r tr q w h; simpa [processFiles] using h
  | cons p rest ih =>
    intro fs r tr q w h
    have h1 := AVIFToPNG_outFiles_mono p out false fs q w h
    simp only [processFiles]
    cases hres : (AVIFToPNG p out false fs).1 with
    | ok u =>
      exact ih (AVIFToPNG p out false fs).2
        { r with successful := r.successful + 1 } (tr ++ [⟨p, out, false⟩]) q w h1
    | error e =>
      cases e with
      | fileExists =>
        exact ih (AVIFToPNG p out false fs).2
          { r with skipped := r.skipped + 1 } (tr ++ [⟨p, out, false⟩]) q w h1
      | other m =>
        exact ih (AVIFToPNG p out false fs).2
          { r with failed := r.failed + 1, errors := r.errors ++ [⟨p, m⟩] }
          (tr ++ [⟨p, out, false⟩]) q w h1

/-- The failure counter never decreases across the loop. -/
theorem processFiles_failed_mono (out : String) (files : List String) :
    ∀ (fs : FS) (r : ConversionResult) (tr : List Call),
      r.failed ≤ (processFiles files out r fs tr).1.failed := by
  induction files with
  | nil => intro fs r tr; simp [processFiles]
  | cons p rest ih =>
    intro fs r tr
    simp only [processFiles]
    cases hres : (AVIFToPNG p out false fs).1 with
    | ok u =>
      exact ih (AVIFToPNG p out false fs).2
        { r with successful := r.successful + 1 } (tr ++ [⟨p, out, false⟩])
    | error e =>
      cases e with
      | fileExists =>
        exact ih (AVIFToPNG p out false fs).2
          { r with skipped := r.skipped + 1 } (tr ++ [⟨p, out, false⟩])
      | other m =>
        exact Nat.le_trans (Nat.le_succ _)
          (ih (AVIFToPNG p out false fs).2
            { r with failed := r.failed + 1, errors := r.errors ++ [⟨p, m⟩] }
            (tr ++ [⟨p, out, false⟩]))

/-- If the loop finished without new failures, then every processed
file decoded, `MkdirAll` on the output directory succeeded, and the
file's flattened output path is occupied in the final state (it was
either just written, or already there and skipped). -/
theorem processFiles_no_new_failures (out : String) (files : List String) :
    ∀ (fs : FS) (r : ConversionResult) (tr : List Call),
      (processFiles files out r fs tr).1.failed = r.failed →
      ∀ p ∈ files,
        sourceDecodes fs p = true ∧ fs.mkdirAllErr out = none ∧
        (lookupOut (outPathOf out p) (processFiles files out r fs tr).2.1.outFiles).isSome
          = true := by
  induction files with
  | nil => intro fs r tr h p hp; cases hp
  | cons p rest ih =>
    intro fs r tr h q hq
    cases hres : (AVIFToPNG p out false fs).1 with
    | ok u =>
      cases u
      obtain ⟨hd, hm, hocc⟩ := AVIFToPNG_ok_inv p out false fs hres
      simp only [processFiles, hres] at h ⊢
      rcases List.mem_cons.mp hq with hqp | hqr
      · subst hqp
        obtain ⟨w, hw⟩ := Option.isSome_iff_exists.mp hocc
        refine ⟨hd, hm, ?_⟩
        rw [processFiles_outFiles_mono out rest _ _ _ _ w hw]
        rfl
      · obtain ⟨hd', hm', hocc'⟩ := ih _ _ _ h q hqr
        have hfr := AVIFToPNG_frame p out false fs
        refine ⟨?_, ?_, hocc'⟩
        · simp only [sourceDecodes, decodeResult] at hd' ⊢
          rw [hfr.1] at hd'; exact hd'
        · rw [hfr.2.1] at hm'; exact hm'
    | error e =>
      cases e with
      | fileExists =>
        obtain ⟨hd, hm, hocc⟩ := AVIFToPNG_fileExists_inv p out false fs hres
        simp only [processFiles, hres] at h ⊢
        rcases List.mem_cons.mp hq with hqp | hqr
        · subst hqp
          obtain ⟨w, hw⟩ := Option.isSome_iff_exists.mp hocc
          refine ⟨hd, hm, ?_⟩
          rw [processFiles_outFiles_mono out rest _ _ _ _ w hw]
          rfl
        · obtain ⟨hd', hm', hocc'⟩ := ih _ _ _ h q hqr
          have hfr := AVIFToPNG_frame p out false fs
          refine ⟨?_, ?_, hocc'⟩
          · simp only [sourceDecodes, decodeResult] at hd' ⊢
            rw [hfr.1] at hd'; exact hd'
          · rw [hfr.2.1] at hm'; exact hm'
      | other m =>
        exfalso
        simp only [processFiles, hres] at h
        have hmono := processFiles_failed_mono out rest (AVIFToPNG p out false fs).2
          { r with failed := r.failed + 1, errors := r.errors ++ [⟨p, m⟩] }
          (tr ++ [⟨p, out, false⟩])
        simp only [h] at hmono
        omega

/-- When every file of the batch decodes, `MkdirAll` succeeds and every
flattened output path is already occupied, the loop skips everything:
no success, no failure, no new error, `skipped` grows by the number of
files. -/
theorem processFiles_all_occupied (out : String) (files : List String) :
    ∀ (fs : FS) (r : ConversionResult) (tr : List Call),
      (∀ p ∈ files, sourceDecodes fs p = true ∧ fs.mkdirAllErr out = none ∧
          (lookupOut (outPathOf out p) fs.outFiles).isSome = true) →
      (processFiles files out r fs tr).1.successful = r.successful ∧
      (processFiles files out r fs tr).1.skipped = r.skipped + files.length ∧
      (processFiles files out r fs tr).1.failed = r.failed ∧
      (processFiles files out r fs tr).1.errors = r.errors ∧
      (processFiles files out r fs tr).1.totalFiles = r.totalFiles := by
  induction files with
  | nil => intro fs r tr hall; simp [processFiles]
  | cons p rest ih =>
    intro fs r tr hall
    obtain ⟨hd, hm, hocc⟩ := hall p (List.mem_cons_self p rest)
    have hstep := AVIFToPNG_exists p out false fs hd hm hocc
    simp only [processFiles, hstep]
    have hall' : ∀ q ∈ rest,
        sourceDecodes { fs with dirs := mkdirAllDirs out fs.dirs } q = true ∧
        FS.mkdirAllErr { fs with dirs := mkdirAllDirs out fs.dirs } out = none ∧
        (lookupOut (outPathOf out q)
          (FS.outFiles { fs with dirs := mkdirAllDirs out fs.dirs })).isSome = true :=
      fun q hq => hall q (List.mem_cons_of_mem p hq)
    obtain ⟨c1, c2, c3, c4, c5⟩ :=
      ih { fs with dirs := mkdirAllDirs out fs.dirs }
        { r with skipped := r.skipped + 1 } (tr ++ [⟨p, out, false⟩]) hall'
    refine ⟨c1, ?_, c3, c4, c5⟩
    rw [c2]
    simp only [List.length_cons]
    omega

/-- Under the N valid / M invalid classification, cleanly-converting
and non-decoding files partition the batch. -/
theorem classified_length (fs : FS) (out : String) :
    ∀ (files : List String),
      (∀ p ∈ files, convertsCleanly fs out p = true ∨ sourceDecodes fs p = false) →
      (files.filter (fun p => convertsCleanly fs out p)).length
          + (files.filter (fun p => ! sourceDecodes fs p)).length = files.length := by
  intro files
  induction files with
  | nil => intro h; simp
  | cons p rest ih =>
    intro h
    have ihr := ih (fun q hq => h q (List.mem_cons_of_mem p hq))
    rcases h p (List.mem_cons_self p rest) with hc | hd
    · simp [List.filter_cons, hc, convertsCleanly_decodes fs out p hc]
      omega
    · have hnc : convertsCleanly fs out p = false := by
        cases hcc : convertsCleanly fs out p with
        | false => rfl
        | true =>
          rw [convertsCleanly_decodes fs out p hcc] at hd
          cases hd
      simp only [List.filter_cons, hnc, hd, Bool.not_false, if_true,
        Bool.false_eq_true, if_false, List.length_cons]
      omega

/-- One loop pass over an N valid / M invalid batch (all output paths
initially free and pairwise distinct): `successful` grows by N,
`failed` by M, `skipped` and `totalFiles` are untouched, and one error
per invalid file, carrying that file's path, is appended in processing
order. -/
theorem processFiles_classified (out : String) (files : List String) :
    ∀ (fs : FS) (r : ConversionResult) (tr : List Call),
      (∀ p ∈ files, convertsCleanly fs out p = true ∨ sourceDecodes fs p = false) →
      (∀ p ∈ files, lookupOut (outPathOf out p) fs.outFiles = none) →
      (files.map (outPathOf out)).Nodup →
      (processFiles files out r fs tr).1.successful
          = r.successful + (files.filter (fun p => convertsCleanly fs out p)).length ∧
      (processFiles files out r fs tr).1.skipped = r.skipped ∧
      (processFiles files out r fs tr).1.failed
          = r.failed + (files.filter (fun p => ! sourceDecodes fs p)).length ∧
      (processFiles files out r fs tr).1.totalFiles = r.totalFiles ∧
      (processFiles files out r fs tr).1.errors.map (fun e => e.filePath)
          = r.errors.map (fun e => e.filePath)
            ++ files.filter (fun p => ! sourceDecodes fs p) := by
  induction files with
  | nil => intro fs r tr h1 h2 h3; simp [processFiles]
  | cons p rest ih =>
    intro fs r tr hclass hfree hnd
    have hndr := (List.nodup_cons.mp hnd).2
    have hnotmem := (List.nodup_cons.mp hnd).1
    rcases hclass p (List.mem_cons_self p rest) with hclean | hdec
    · obtain ⟨img, hsrc, hstep⟩ :=
        AVIFToPNG_clean p out false fs hclean (hfree p (List.mem_cons_self p rest))
      simp only [processFiles, hstep]
      have hclass' : ∀ q ∈ rest,
          convertsCleanly
              { fs with dirs := mkdirAllDirs out fs.dirs
                        outFiles := (outPathOf out p, img) :: fs.outFiles } out q = true ∨
          sourceDecodes
              { fs with dirs := mkdirAllDirs out fs.dirs
                        outFiles := (outPathOf out p, img) :: fs.outFiles } q = false :=
        fun q hq => hclass q (List.mem_cons_of_mem p hq)
      have hfree' : ∀ q ∈ rest,
          lookupOut (outPathOf out q)
            (FS.outFiles
              { fs with dirs := mkdirAllDirs out fs.dirs
                        outFiles := (outPathOf out p, img) :: fs.outFiles }) = none := by
        intro q hq
        have hne : outPathOf out p ≠ outPathOf out q := by
          intro he
          exact hnotmem (he ▸ List.mem_map_of_mem (outPathOf out) hq)
        show lookupOut (outPathOf out q) ((outPathOf out p, img) :: fs.outFiles) = none
        simp only [lookupOut, hne, if_false]
        exact hfree q (List.mem_cons_of_mem p hq)
      obtain ⟨c1, c2, c3, c4, c5⟩ :=
        ih { fs with dirs := mkdirAllDirs out fs.dirs
                     outFiles := (outPathOf out p, img) :: fs.outFiles }
          { r with successful := r.successful + 1 } (tr ++ [⟨p, out, false⟩])
          hclass' hfree' hndr
      have c1' : (processFiles rest out { r with successful := r.successful + 1 }
            { fs with dirs := mkdirAllDirs out fs.dirs
                      outFiles := (outPathOf out p, img) :: fs.outFiles }
            (tr ++ [⟨p, out, false⟩])).1.successful
          = r.successful + 1
            + (rest.filter (fun q => convertsCleanly fs out q)).length := c1
      have c3' : (processFiles rest out { r with successful := r.successful + 1 }
            { fs with dirs := mkdirAllDirs out fs.dirs
                      outFiles := (outPathOf out p, img) :: fs.outFiles }
            (tr ++ [⟨p, out, false⟩])).1.failed
          = r.failed + (rest.filter (fun q => ! sourceDecodes fs q)).length := c3
      have c5' : (processFiles rest out { r with successful := r.successful + 1 }
            { fs with dirs := mkdirAllDirs out fs.dirs
                      outFiles := (outPathOf out p, img) :: fs.outFiles }
            (tr ++ [⟨p, out, false⟩])).1.errors.map (fun e => e.filePath)
          = r.errors.map (fun e => e.filePath)
            ++ rest.filter (fun q => ! sourceDecodes fs q) := c5
      refine ⟨?_, c2, ?_, c4, ?_⟩
      · rw [c1']
        simp only [List.filter_cons, hclean, if_true, List.length_cons]
        omega
      · rw [c3']
        simp only [List.filter_cons, convertsCleanly_decodes fs out p hclean,
          Bool.not_true, Bool.false_eq_true, if_false]
      · rw [c5']
        simp only [List.filter_cons, convertsCleanly_decodes fs out p hclean,
          Bool.not_true, Bool.false_eq_true, if_false]
    · obtain ⟨m, hstep⟩ := AVIFToPNG_not_decode p out false fs hdec
      simp only [processFiles, hstep]
      have hnc : convertsCleanly fs out p = false := by
        cases hcc : convertsCleanly fs out p with
        | false => rfl
        | true =>
          rw [convertsCleanly_decodes fs out p hcc] at hdec
          cases hdec
      obtain ⟨c1, c2, c3, c4, c5⟩ :=
        ih fs { r with failed := r.failed + 1, errors := r.errors ++ [⟨p, m⟩] }
          (tr ++ [⟨p, out, false⟩])
          (fun q hq => hclass q (List.mem_cons_of_mem p hq))
          (fun q hq => hfree q (List.mem_cons_of_mem p hq)) hndr
      refine ⟨?_, c2, ?_, c4, ?_⟩
      · rw [c1]
        simp only [List.filter_cons, hnc, Bool.false_eq_true, if_false]
      · rw [c3]
        simp only [List.filter_cons, hdec, Bool.not_false, if_true, List.length_cons]
        omega
      · rw [c5]
        simp only [List.filter_cons, hdec, Bool.not_false, if_true,
          List.map_append, List.append_assoc]
        rfl

/-! ### Flattening: base name and extension ignore the directory part -/

theorem extAux_append_slash (l : List Char) :
    ∀ (r : List Char) (acc : List Char), '/' ∉ r →
      extAux (r ++ '/' :: l) acc = extAux r acc := by
  intro r
  induction r with
  | nil => intro acc h; simp [extAux]
  | cons c cs ih =>
    intro acc h
    have hc : c ≠ '/' := fun hh => h (hh ▸ List.mem_cons_self c cs)
    by_cases hdot : c = '.'
    · simp [extAux, hdot]
    · simp only [List.cons_append, extAux, if_neg hc, if_neg hdot]
      exact ih (c :: acc) (fun hm => h (List.mem_cons_of_mem c hm))

/-- The extension of `d / name` is the extension of `name` itself when
`name` contains no slash. -/
theorem filepathExt_join (d name : String) (hd : d ≠ "") (hn : name ≠ "")
    (hs : '/' ∉ name.data) :
    filepathExt (filepathJoin d name) = filepathExt name := by
  have hjoin : filepathJoin d name = d ++ "/" ++ name := by
    simp [filepathJoin, hd, hn]
  rw [hjoin]
  show extAux (d ++ "/" ++ name).data.reverse [] = extAux name.data.reverse []
  have hdata : (d ++ "/" ++ name).data = d.data ++ '/' :: name.data := by
    simp [String.data_append]
  rw [hdata]
  have hrev : (d.data ++ '/' :: name.data).reverse
      = name.data.reverse ++ '/' :: d.data.reverse := by
    simp
  rw [hrev]
  exact extAux_append_slash d.data.reverse name.data.reverse []
    (fun hm => hs (List.mem_reverse.mp hm))
theorem takeWhile_append_slash (l : List Char) :
    ∀ (r : List Char), '/' ∉ r →
      List.takeWhile (fun c => c ≠ '/') (r ++ '/' :: l) = r := by
  intro r
  induction r with
  | nil => intro h; simp
  | cons c cs ih =>
    intro h
    have hc : c ≠ '/' := fun hh => h (hh ▸ List.mem_cons_self c cs)
    have ihr := ih (fun hm => h (List.mem_cons_of_mem c hm))
    simpa [List.takeWhile_cons, hc] using ihr

/-- The base name of `d / name` is `name` itself when `name` is
nonempty and contains no slash. -/
theorem filepathBase_join (d name : String) (hd : d ≠ "") (hn : name ≠ "")
    (hs : '/' ∉ name.data) :
    filepathBase (filepathJoin d name) = name := by
  have hjoin : filepathJoin d name = d ++ "/" ++ name := by
    simp [filepathJoin, hd, hn]
  rw [hjoin]
  have hnd : name.data ≠ [] := by
    intro h
    exact hn (String.ext (h.trans rfl))
  obtain ⟨c, cs, hrev⟩ : ∃ c cs, name.data.reverse = c :: cs := by
    cases h : name.data.reverse with
    | nil => exact absurd (List.reverse_eq_nil_iff.mp h) hnd
    | cons c cs => exact ⟨c, cs, rfl⟩
  have hc : c ≠ '/' := by
    intro hcs
    apply hs
    have hmem : c ∈ name.data.reverse := hrev ▸ List.mem_cons_self c cs
    exact List.mem_reverse.mp (hcs ▸ hmem)
  have hcall : '/' ∉ c :: cs := by
    rw [← hrev]
    intro hm
    exact hs (List.mem_reverse.mp hm)
  have hdata : (d ++ "/" ++ name).data = d.data ++ '/' :: name.data := by
    simp [String.data_append]
  simp only [filepathBase, hdata]
  have hni : ¬ (d.data ++ '/' :: name.data = []) := by simp
  rw [if_neg hni]
  have hr3 : (d.data ++ '/' :: name.data).reverse
      = c :: (cs ++ '/' :: d.data.reverse) := by
    simp [hrev]
  rw [hr3]
  have hdw : List.dropWhile (fun c => decide (c = '/'))
        (c :: (cs ++ '/' :: d.data.reverse))
      = c :: (cs ++ '/' :: d.data.reverse) := by
    simp [List.dropWhile_cons, hc]
  rw [hdw]
  have hcons : (c :: (cs ++ '/' :: d.data.reverse)) ≠ [] := by simp
  rw [if_neg hcons]
  have hsplit : c :: (cs ++ '/' :: d.data.reverse)
      = (c :: cs) ++ '/' :: d.data.reverse := by simp
  rw [hsplit, takeWhile_append_slash d.data.reverse (c :: cs) hcall, ← hrev,
    List.reverse_reverse]

/-- The destination path of a source file depends only on the file's
own name, never on the directory it came from. -/
theorem outPathOf_join (out d name : String) (hd : d ≠ "") (hn : name ≠ "")
    (hs : '/' ∉ name.data) :
    outPathOf out (filepathJoin d name)
      = filepathJoin out (trimSuffix name (filepathExt name) ++ ".png") := by
  unfold outPathOf
  rw [filepathBase_join d name hd hn hs, filepathExt_join d name hd hn hs]

/-- A cleanly-converting file in particular has a working `MkdirAll`
for the output directory. -/
theorem convertsCleanly_mkdir (fs : FS) (out p : String)
    (h : convertsCleanly fs out p = true) : fs.mkdirAllErr out = none := by
  cases hs : fs.source p with
  | openErr m => simp [convertsCleanly, hs] at h
  | decodeErr m => simp [convertsCleanly, hs] at h
  | image img =>
    simp only [convertsCleanly, hs, Bool.and_eq_true, Option.isNone_iff_eq_none] at h
    exact h.1.1

/-- Creating directories with `MkdirAll` leaves every requested ancestor present. -/
theorem mem_mkdirAllDirs (out q : String) (dirs : List String)
    (h : q ∈ parentPrefixes out) : q ∈ mkdirAllDirs out dirs := by
  unfold mkdirAllDirs
  by_cases hq : q ∈ dirs
  · exact List.mem_append_left _ hq
  · refine List.mem_append_right _ ?_
    rw [List.mem_filter]
    refine ⟨h, ?_⟩
    simp [List.elem_iff, hq]

/-- The loop changes neither the decode outcomes nor the
`MkdirAll` failure oracle. -/
theorem processFiles_frame (out : String) (files : List String) :
    ∀ (fs : FS) (r : ConversionResult) (tr : List Call),
      (processFiles files out r fs tr).2.1.source = fs.source ∧
      (processFiles files out r fs tr).2.1.mkdirAllErr = fs.mkdirAllErr := by
  induction files with
  | nil => intro fs r tr; exact ⟨rfl, rfl⟩
  | cons p rest ih =>
    intro fs r tr
    simp only [processFiles]
    have hfr := AVIFToPNG_frame p out false fs
    cases hres : (AVIFToPNG p out false fs).1 with
    | ok u =>
      obtain ⟨a, b⟩ := ih (AVIFToPNG p out false fs).2
        { r with successful := r.successful + 1 } (tr ++ [⟨p, out, false⟩])
      exact ⟨a.trans hfr.1, b.trans hfr.2.1⟩
    | error e =>
      cases e with
      | fileExists =>
        obtain ⟨a, b⟩ := ih (AVIFToPNG p out false fs).2
          { r with skipped := r.skipped + 1 } (tr ++ [⟨p, out, false⟩])
        exact ⟨a.trans hfr.1, b.trans hfr.2.1⟩
      | other m =>
        obtain ⟨a, b⟩ := ih (AVIFToPNG p out false fs).2
          { r with failed := r.failed + 1, errors := r.errors ++ [⟨p, m⟩] }
          (tr ++ [⟨p, out, false⟩])
        exact ⟨a.trans hfr.1, b.trans hfr.2.1⟩

/-! ### Concrete fixtures -/

/-- A filesystem state with the given decode oracle, no pre-existing
output files or directories, and no `MkdirAll`/`Create`/`Encode`
failures. -/
def mkFS (src : String → SourceOutcome) : FS :=
  { source := src, outFiles := [], dirs := []
    mkdirAllErr := fun _ => none, createErr := fun _ => none
    encodeErr := fun _ => none }

/-- The example input directory of the specification:
`photo1.avif`, `photo2.avif`, `.hidden.avif`, `notes.txt`. -/
def sampleTree : FTree :=
  .dir "input" none
    [.file "photo1.avif", .file "photo2.avif", .file ".hidden.avif", .file "notes.txt"]

/-- Oracle where `photo1.avif` decodes and everything else is a corrupt source. -/
def sampleFS : FS :=
  mkFS (fun p => if p = "input/photo1.avif" then .image 7 else .decodeErr "bad")

/-- A directory holding a single corrupt AVIF file. -/
def badTree : FTree := .dir "in" none [.file "bad.avif"]

/-- Every source is corrupt. -/
def badFS : FS := mkFS (fun _ => .decodeErr "bad")

/-- A directory holding a single good AVIF file. -/
def okTree : FTree := .dir "in" none [.file "a.avif"]

/-- Every source decodes. -/
def okFS : FS := mkFS (fun _ => .image 5)

/-- The batch result of converting the sample directory against the
sample decode oracle. -/
def sampleResult : ConversionResult :=
  { totalFiles := 2, successful := 1, skipped := 0, failed := 1
    errors := [⟨"input/photo2.avif", "failed to decode AVIF image: bad"⟩] }

/-- Every source decodes, and `out/a.png` already exists with
contents `9`. -/
def occupiedFS : FS := { okFS with outFiles := [("out/a.png", 9)] }

/-! ### Claim theorems -/

/-- C8: if the collected set of source files is empty, `ConvertDirectory`
returns immediately with `totalFiles`, `successful`, `skipped` and
`failed` all zero and an empty error list, leaves the filesystem state
untouched (in particular it never attempts to create the destination
directory), and invokes no single-file conversion. -/
theorem convertDirectory_empty_batch (inputDir outputDir : String) (input : FTree)
    (recursive verbose : Bool) (fs : FS)
    (h : collectAVIFFiles inputDir input recursive = .ok []) :
    ConvertDirectory inputDir input outputDir recursive verbose fs
      = (.ok { totalFiles := 0, successful := 0, skipped := 0, failed := 0, errors := [] },
         fs, []) :=
  convertDirectory_nil_collect inputDir outputDir input recursive verbose fs h

/-- Witness for C8 at the empty directory. -/
theorem convertDirectory_empty_batch_witness :
    ConvertDirectory "input" (FTree.dir "input" none []) "out" false false sampleFS
      = (.ok { totalFiles := 0, successful := 0, skipped := 0, failed := 0, errors := [] },
         sampleFS, []) :=
  convertDirectory_empty_batch "input" "out" (FTree.dir "input" none []) false false
    sampleFS (by decide)

/-- C5: whenever a single-file conversion returns the distinguishable
`ErrFileExists`, the set of output files — the pre-existing destination
file and its contents included — is exactly as before the call: the
already-exists check precedes any open-for-writing of the destination.
Moreover the destination path was indeed occupied. -/
theorem avifToPNG_already_exists_untouched (p out : String) (v : Bool) (fs : FS)
    (h : (AVIFToPNG p out v fs).1 = .error .fileExists) :
    (AVIFToPNG p out v fs).2.outFiles = fs.outFiles ∧
    (lookupOut (outPathOf out p) fs.outFiles).isSome = true := by
  cases hs : fs.source p with
  | openErr m => simp [AVIFToPNG, hs] at h
  | decodeErr m => simp [AVIFToPNG, hs] at h
  | image img =>
    cases hm : fs.mkdirAllErr out with
    | some m => simp [AVIFToPNG, hs, hm] at h
    | none =>
      cases hl : lookupOut (outPathOf out p) fs.outFiles with
      | some w => exact ⟨by simp [AVIFToPNG, hs, hm, hl], by simp [hl]⟩
      | none =>
        cases hc : fs.createErr (outPathOf out p) with
        | some m => simp [AVIFToPNG, hs, hm, hl, hc] at h
        | none =>
          cases he : fs.encodeErr img with
          | some m => simp [AVIFToPNG, hs, hm, hl, hc, he] at h
          | none => simp [AVIFToPNG, hs, hm, hl, hc, he] at h

/-- Witness for C5: converting `in/a.avif` while `out/a.png` already
exists (contents `9`) reports `ErrFileExists` and leaves the output
files untouched. -/
theorem avifToPNG_already_exists_untouched_witness :
    (AVIFToPNG "in/a.avif" "out" false occupiedFS).2.outFiles = occupiedFS.outFiles ∧
    (lookupOut (outPathOf "out" "in/a.avif") occupiedFS.outFiles).isSome = true :=
  avifToPNG_already_exists_untouched "in/a.avif" "out" false occupiedFS (by decide)

/-- C6 counterexample: with the batch's verbose flag set to `true`, the
(one) single-file conversion of the batch is still invoked with verbose
`false` — the flag is not forwarded. -/
theorem convertDirectory_verbose_not_forwarded_cex :
    ((ConvertDirectory "in" okTree "out" false true okFS).2.2.map Call.verbose = [false])
    ∧ true ≠ false :=
  ⟨by decide, by decide⟩

/-- C6 (amended): for every source file of the batch, `ConvertDirectory`
invokes the single-file conversion with
`(source path, destination directory, false)` — the batch's verbose
flag is never forwarded; the batch loop does its own verbose
reporting. -/
theorem convertDirectory_calls (inputDir outputDir : String) (input : FTree)
    (recursive verbose : Bool) (fs : FS) (files : List String)
    (hc : collectAVIFFiles inputDir input recursive = .ok files) :
    (ConvertDirectory inputDir input outputDir recursive verbose fs).2.2
      = files.map (fun p => ⟨p, outputDir, false⟩) := by
  by_cases hne : files.length = 0
  · have : files = [] := List.length_eq_zero.mp hne
    subst this
    simp [ConvertDirectory, hc]
  · rw [ConvertDirectory_eq_of_ok inputDir outputDir input recursive verbose fs files hc hne]
    have h4 := (processFiles_counts outputDir files fs (initResult files) []).2.2.2
    simpa using h4

/-- Witness for C6 (amended): the batch over `in/a.avif` with verbose
`true` makes exactly the invocation `(in/a.avif, out, false)`. -/
theorem convertDirectory_calls_witness :
    (ConvertDirectory "in" okTree "out" false true okFS).2.2
      = ["in/a.avif"].map (fun p => ⟨p, "out", false⟩) :=
  convertDirectory_calls "in" "out" okTree false true okFS ["in/a.avif"] (by decide)

/-- C2: `ConvertDirectory` reports an error to its caller exactly when
collection fails; and whenever collection succeeds, every collected
file is processed to one of the three outcomes (the counters sum to the
number of collected files) and every per-file failure is recorded in
the returned error list rather than raised. -/
theorem convertDirectory_error_iff_collect_error :
    (∀ (inputDir outputDir : String) (input : FTree) (recursive verbose : Bool) (fs : FS),
      exceptOk (ConvertDirectory inputDir input outputDir recursive verbose fs).1
        = exceptOk (collectAVIFFiles inputDir input recursive)) ∧
    (∀ (inputDir outputDir : String) (input : FTree) (recursive verbose : Bool) (fs : FS)
        (files : List String),
      collectAVIFFiles inputDir input recursive = .ok files →
      ∃ r, (ConvertDirectory inputDir input outputDir recursive verbose fs).1 = .ok r ∧
        r.totalFiles = files.length ∧
        r.successful + r.skipped + r.failed = files.length ∧
        r.errors.length = r.failed) := by
  constructor
  · intro inputDir outputDir input recursive verbose fs
    cases hc : collectAVIFFiles inputDir input recursive with
    | error e => simp [ConvertDirectory, hc, exceptOk]
    | ok files =>
      by_cases hlen : files.length = 0
      · simp [ConvertDirectory, hc, hlen, exceptOk]
      · simp [ConvertDirectory, hc, hlen, exceptOk]
  · intro inputDir outputDir input recursive verbose fs files hc
    by_cases hne : files.length = 0
    · have hnil : files = [] := List.length_eq_zero.mp hne
      subst hnil
      exact ⟨{ totalFiles := 0, successful := 0, skipped := 0, failed := 0, errors := [] },
        by simp [ConvertDirectory, hc], by simp, by simp, by simp⟩
    · obtain ⟨h1, h2, h3, h4⟩ := processFiles_counts outputDir files fs (initResult files) []
      refine ⟨(processFiles files outputDir (initResult files) fs []).1, ?_, ?_, ?_, ?_⟩
      · rw [ConvertDirectory_eq_of_ok inputDir outputDir input recursive verbose fs files hc hne]
      · exact h1
      · simp only [initResult_successful, initResult_skipped, initResult_failed] at h2
        omega
      · simp only [initResult_errors, initResult_failed, List.length_nil] at h3
        omega

/-- Witness for C2 at the four-file sample directory. -/
theorem convertDirectory_error_iff_collect_error_witness :
    (exceptOk (ConvertDirectory "input" sampleTree "out" false false sampleFS).1
        = exceptOk (collectAVIFFiles "input" sampleTree false)) ∧
    (∃ r, (ConvertDirectory "input" sampleTree "out" false false sampleFS).1 = .ok r ∧
      r.totalFiles = ["input/photo1.avif", "input/photo2.avif"].length ∧
      r.successful + r.skipped + r.failed = ["input/photo1.avif", "input/photo2.avif"].length ∧
      r.errors.length = r.failed) :=
  ⟨convertDirectory_error_iff_collect_error.1 "input" "out" sampleTree false false sampleFS,
   convertDirectory_error_iff_collect_error.2 "input" "out" sampleTree false false sampleFS
     ["input/photo1.avif", "input/photo2.avif"] (by decide)⟩

/-- C7: non-recursive collection returns exactly the immediate
non-directory children whose extension matches `.avif`
case-insensitively and whose name does not start with a dot, each
joined onto the root; and on the concrete sample directory it returns
exactly `input/photo1.avif` and `input/photo2.avif`. -/
theorem collect_nonrecursive_characterization :
    (∀ (rootDir dname : String) (children : List FTree) (q : String),
      ∃ files, collectAVIFFiles rootDir (.dir dname none children) false = .ok files ∧
        (q ∈ files ↔ ∃ name, FTree.file name ∈ children ∧
          q = filepathJoin rootDir name ∧
          strStartsWith name "." = false ∧
          toLowerStr (filepathExt name) = ".avif")) ∧
    collectAVIFFiles "input" sampleTree false
      = .ok ["input/photo1.avif", "input/photo2.avif"] := by
  constructor
  · intro rootDir dname children q
    refine ⟨_, rfl, ?_⟩
    rw [List.mem_filterMap]
    constructor
    · rintro ⟨entry, hmem, hq⟩
      cases entry with
      | dir n e ch => simp at hq
      | file name =>
        by_cases h1 : strStartsWith name "." = true
        · simp [h1] at hq
        · by_cases h2 : toLowerStr (filepathExt name) = ".avif"
          · simp only [h2, if_true] at hq
            simp only [Bool.not_eq_true] at h1
            simp only [h1, Bool.false_eq_true, if_false, Option.some.injEq] at hq
            exact ⟨name, hmem, hq.symm, h1, h2⟩
          · simp only [Bool.not_eq_true] at h1
            simp [h1, h2] at hq
    · rintro ⟨name, hmem, hq, h1, h2⟩
      exact ⟨.file name, hmem, by simp [h1, h2, hq]⟩
  · decide

/-- Witness for C7 at the sample directory. -/
theorem collect_nonrecursive_characterization_witness :
    (∃ files, collectAVIFFiles "input" (.dir "input" none
        [.file "photo1.avif", .file "photo2.avif", .file ".hidden.avif", .file "notes.txt"])
        false = .ok files ∧
      ("input/photo1.avif" ∈ files ↔ ∃ name,
        FTree.file name ∈ [FTree.file "photo1.avif", FTree.file "photo2.avif",
          FTree.file ".hidden.avif", FTree.file "notes.txt"] ∧
        "input/photo1.avif" = filepathJoin "input" name ∧
        strStartsWith name "." = false ∧
        toLowerStr (filepathExt name) = ".avif")) ∧
    collectAVIFFiles "input" sampleTree false
      = .ok ["input/photo1.avif", "input/photo2.avif"] :=
  ⟨collect_nonrecursive_characterization.1 "input" "input"
      [.file "photo1.avif", .file "photo2.avif", .file ".hidden.avif", .file "notes.txt"]
      "input/photo1.avif",
   collect_nonrecursive_characterization.2⟩

/-- C9: in recursive collection the hidden-name exclusion applies only
to files, not directories — a matching file inside a hidden directory
is collected (with the hidden directory in its path), while a hidden
file with the same matching extension is itself excluded. -/
theorem collect_recursive_hidden_dir_descended
    (root dname fname : String)
    (hd : strStartsWith dname "." = true)
    (hf : strStartsWith fname "." = false)
    (hext : toLowerStr (filepathExt fname) = ".avif") :
    collectAVIFFiles root (.dir "in" none [.dir dname none [.file fname]]) true
      = .ok [filepathJoin (filepathJoin root dname) fname] ∧
    collectAVIFFiles root (.dir "in" none [.file dname]) true = .ok [] := by
  constructor
  · simp [collectAVIFFiles, walkCollect, walkChildren, FTree.name, hd, hf, hext,
      Except.bind]
    rfl
  · simp [collectAVIFFiles, walkCollect, walkChildren, FTree.name, hd, Except.bind]
    rfl

/-- Witness for C9: `input/.secret/photo.avif` is collected
recursively, while a hidden `input/.secret.avif` file would not be. -/
theorem collect_recursive_hidden_dir_descended_witness :
    (collectAVIFFiles "input"
        (.dir "in" none [.dir ".secret" none [.file "photo.avif"]]) true
      = .ok [filepathJoin (filepathJoin "input" ".secret") "photo.avif"]) ∧
    collectAVIFFiles "input" (.dir "in" none [.file ".secret"]) true = .ok [] :=
  collect_recursive_hidden_dir_descended "input" ".secret" "photo.avif"
    (by decide) (by decide) (by decide)

/-- C10: provided `os.MkdirAll` itself can succeed on the output
directory, a single-file conversion creates the output directory (and
all its missing ancestors) exactly when the source decodes — also when
the outcome is `ErrFileExists` or a create/encode failure — and
touches nothing at all when opening or decoding the source fails. -/
theorem avifToPNG_mkdir_iff_decode (p out : String) (v : Bool) (fs : FS)
    (hmk : fs.mkdirAllErr out = none) :
    (sourceDecodes fs p = false → (AVIFToPNG p out v fs).2 = fs) ∧
    (sourceDecodes fs p = true →
      (AVIFToPNG p out v fs).2.dirs = mkdirAllDirs out fs.dirs ∧
      ∀ q ∈ parentPrefixes out, q ∈ (AVIFToPNG p out v fs).2.dirs) := by
  constructor
  · intro h
    cases hs : fs.source p with
    | openErr m => simp [AVIFToPNG, hs]
    | decodeErr m => simp [AVIFToPNG, hs]
    | image img => simp [sourceDecodes, decodeResult, hs] at h
  · intro h
    have hdirs : (AVIFToPNG p out v fs).2.dirs = mkdirAllDirs out fs.dirs := by
      cases hs : fs.source p with
      | openErr m => simp [sourceDecodes, decodeResult, hs] at h
      | decodeErr m => simp [sourceDecodes, decodeResult, hs] at h
      | image img =>
        cases hl : lookupOut (outPathOf out p) fs.outFiles with
        | some w => simp [AVIFToPNG, hs, hmk, hl]
        | none =>
          cases hc : fs.createErr (outPathOf out p) with
          | some m => simp [AVIFToPNG, hs, hmk, hl, hc]
          | none =>
            cases he : fs.encodeErr img with
            | some m => simp [AVIFToPNG, hs, hmk, hl, hc, he]
            | none => simp [AVIFToPNG, hs, hmk, hl, hc, he]
    refine ⟨hdirs, ?_⟩
    intro q hq
    rw [hdirs]
    exact mem_mkdirAllDirs out q fs.dirs hq

/-- Witness for C10: converting `in/a.avif` into `nested/deep/output`
creates all three nested directories; with a corrupt source, nothing is
touched. -/
theorem avifToPNG_mkdir_iff_decode_witness :
    ((sourceDecodes okFS "in/a.avif" = false →
        (AVIFToPNG "in/a.avif" "nested/deep/output" false okFS).2 = okFS) ∧
      (sourceDecodes okFS "in/a.avif" = true →
        (AVIFToPNG "in/a.avif" "nested/deep/output" false okFS).2.dirs
            = mkdirAllDirs "nested/deep/output" okFS.dirs ∧
        ∀ q ∈ parentPrefixes "nested/deep/output",
          q ∈ (AVIFToPNG "in/a.avif" "nested/deep/output" false okFS).2.dirs)) ∧
    sourceDecodes okFS "in/a.avif" = true ∧
    (sourceDecodes badFS "in/a.avif" = false →
        (AVIFToPNG "in/a.avif" "nested/deep/output" false badFS).2 = badFS) ∧
    sourceDecodes badFS "in/a.avif" = false :=
  ⟨avifToPNG_mkdir_iff_decode "in/a.avif" "nested/deep/output" false okFS (by decide),
   by decide,
   (avifToPNG_mkdir_iff_decode "in/a.avif" "nested/deep/output" false badFS (by decide)).1,
   by decide⟩

/-- C1: (a) every batch run that completes without a structural error
satisfies `successful + skipped + failed = totalFiles` with one recorded
error per failure; (b) for a batch of N cleanly-converting and M
non-decoding files whose (pairwise distinct) output paths are initially
free, `successful = N`, `failed = M`, `totalFiles = N + M`, `skipped = 0`,
and `errors` lists exactly the M failing paths in processing order. -/
theorem convertDirectory_counts_invariant :
    (∀ (inputDir outputDir : String) (input : FTree) (recursive verbose : Bool)
        (fs : FS) (r : ConversionResult),
      (ConvertDirectory inputDir input outputDir recursive verbose fs).1 = .ok r →
      r.successful + r.skipped + r.failed = r.totalFiles ∧
      r.errors.length = r.failed) ∧
    (∀ (inputDir outputDir : String) (input : FTree) (recursive verbose : Bool)
        (fs : FS) (files : List String),
      collectAVIFFiles inputDir input recursive = .ok files →
      (∀ p ∈ files, convertsCleanly fs outputDir p = true ∨ sourceDecodes fs p = false) →
      (∀ p ∈ files, lookupOut (outPathOf outputDir p) fs.outFiles = none) →
      (files.map (outPathOf outputDir)).Nodup →
      ∃ r, (ConvertDirectory inputDir input outputDir recursive verbose fs).1 = .ok r ∧
        r.successful = (files.filter (fun p => convertsCleanly fs outputDir p)).length ∧
        r.failed = (files.filter (fun p => ! sourceDecodes fs p)).length ∧
        r.totalFiles = (files.filter (fun p => convertsCleanly fs outputDir p)).length
            + (files.filter (fun p => ! sourceDecodes fs p)).length ∧
        r.skipped = 0 ∧
        r.errors.length = (files.filter (fun p => ! sourceDecodes fs p)).length ∧
        r.errors.map (fun e => e.filePath)
          = files.filter (fun p => ! sourceDecodes fs p)) := by
  constructor
  · intro inputDir outputDir input recursive verbose fs r hok
    cases hc : collectAVIFFiles inputDir input recursive with
    | error e => simp [ConvertDirectory, hc] at hok
    | ok files =>
      by_cases hne : files.length = 0
      · have hnil := List.length_eq_zero.mp hne
        subst hnil
        rw [convertDirectory_nil_collect inputDir outputDir input recursive verbose fs hc]
          at hok
        have hr := Except.ok.inj hok
        rw [← hr]
        simp
      · rw [ConvertDirectory_eq_of_ok inputDir outputDir input recursive verbose fs files
          hc hne] at hok
        have hr := Except.ok.inj hok
        obtain ⟨h1, h2, h3, h4⟩ := processFiles_counts outputDir files fs (initResult files) []
        rw [← hr]
        simp only [initResult_totalFiles, initResult_successful, initResult_skipped,
          initResult_failed, initResult_errors, List.length_nil] at h1 h2 h3
        constructor
        · omega
        · omega
  · intro inputDir outputDir input recursive verbose fs files hc hclass hfree hnd
    by_cases hne : files.length = 0
    · have hnil := List.length_eq_zero.mp hne
      subst hnil
      refine ⟨{ totalFiles := 0, successful := 0, skipped := 0, failed := 0, errors := [] },
        ?_, by simp, by simp, by simp, rfl, by simp, by simp⟩
      rw [convertDirectory_nil_collect inputDir outputDir input recursive verbose fs hc]
    · rw [ConvertDirectory_eq_of_ok inputDir outputDir input recursive verbose fs files hc hne]
      obtain ⟨c1, c2, c3, c4, c5⟩ :=
        processFiles_classified outputDir files fs (initResult files) [] hclass hfree hnd
      have hlen := classified_length fs outputDir files hclass
      refine ⟨(processFiles files outputDir (initResult files) fs []).1,
        rfl, ?_, ?_, ?_, ?_, ?_, ?_⟩
      · rw [c1, initResult_successful]
        omega
      · rw [c3, initResult_failed]
        omega
      · rw [c4, initResult_totalFiles, ← hlen]
      · exact c2.trans (initResult_skipped files)
      · have hlen2 := congrArg List.length c5
        simp only [initResult_errors, List.map_nil, List.nil_append, List.length_map]
          at hlen2
        exact hlen2
      · simpa only [initResult_errors, List.map_nil, List.nil_append] using c5

/-- Witness for C1 at the sample directory: one valid and one corrupt
file. -/
theorem convertDirectory_counts_invariant_witness :
    (sampleResult.successful + sampleResult.skipped + sampleResult.failed
        = sampleResult.totalFiles ∧
      sampleResult.errors.length = sampleResult.failed) ∧
    (∃ r, (ConvertDirectory "input" sampleTree "out" false false sampleFS).1 = .ok r ∧
      r.successful = ((["input/photo1.avif", "input/photo2.avif"]).filter
          (fun p => convertsCleanly sampleFS "out" p)).length ∧
      r.failed = ((["input/photo1.avif", "input/photo2.avif"]).filter
          (fun p => ! sourceDecodes sampleFS p)).length ∧
      r.totalFiles = ((["input/photo1.avif", "input/photo2.avif"]).filter
            (fun p => convertsCleanly sampleFS "out" p)).length
          + ((["input/photo1.avif", "input/photo2.avif"]).filter
            (fun p => ! sourceDecodes sampleFS p)).length ∧
      r.skipped = 0 ∧
      r.errors.length = ((["input/photo1.avif", "input/photo2.avif"]).filter
          (fun p => ! sourceDecodes sampleFS p)).length ∧
      r.errors.map (fun e => e.filePath)
        = (["input/photo1.avif", "input/photo2.avif"]).filter
            (fun p => ! sourceDecodes sampleFS p)) :=
  ⟨convertDirectory_counts_invariant.1 "input" "out" sampleTree false false sampleFS
      sampleResult (by decide),
   convertDirectory_counts_invariant.2 "input" "out" sampleTree false false sampleFS
      ["input/photo1.avif", "input/photo2.avif"] (by decide) (by decide) (by decide)
      (by decide)⟩

/-- C3: the destination of `d/name` is
`out / (name minus extension ++ ".png")`, independent of `d`; hence two
sources with the same slash-free name from different directories share
one destination, and a batch processing both yields exactly one success
and one skip — the second file is reported `ErrFileExists` and the
first file's output is not overwritten. -/
theorem flattening_collision (out d1 d2 name : String) (fs : FS)
    (r : ConversionResult) (tr : List Call)
    (hd1 : d1 ≠ "") (hd2 : d2 ≠ "") (hn : name ≠ "") (hs : '/' ∉ name.data)
    (hclean : convertsCleanly fs out (filepathJoin d1 name) = true)
    (hdec2 : sourceDecodes fs (filepathJoin d2 name) = true)
    (hfree : lookupOut (outPathOf out (filepathJoin d1 name)) fs.outFiles = none) :
    outPathOf out (filepathJoin d1 name)
        = filepathJoin out (trimSuffix name (filepathExt name) ++ ".png") ∧
    outPathOf out (filepathJoin d1 name) = outPathOf out (filepathJoin d2 name) ∧
    ∃ img, fs.source (filepathJoin d1 name) = .image img ∧
      (processFiles [filepathJoin d1 name, filepathJoin d2 name] out r fs tr).1
        = { r with successful := r.successful + 1, skipped := r.skipped + 1 } ∧
      lookupOut (outPathOf out (filepathJoin d1 name))
          (processFiles [filepathJoin d1 name, filepathJoin d2 name] out r fs tr).2.1.outFiles
        = some img := by
  have hp1 := outPathOf_join out d1 name hd1 hn hs
  have hp2 := outPathOf_join out d2 name hd2 hn hs
  have hpath : outPathOf out (filepathJoin d1 name) = outPathOf out (filepathJoin d2 name) :=
    hp1.trans hp2.symm
  obtain ⟨img, hsrc, hstep1⟩ :=
    AVIFToPNG_clean (filepathJoin d1 name) out false fs hclean hfree
  have hm := convertsCleanly_mkdir fs out (filepathJoin d1 name) hclean
  have hdec2' : sourceDecodes
      { fs with dirs := mkdirAllDirs out fs.dirs
                outFiles := (outPathOf out (filepathJoin d1 name), img) :: fs.outFiles }
      (filepathJoin d2 name) = true := hdec2
  have hm2 : FS.mkdirAllErr
      { fs with dirs := mkdirAllDirs out fs.dirs
                outFiles := (outPathOf out (filepathJoin d1 name), img) :: fs.outFiles }
      out = none := hm
  have hocc2 : (lookupOut (outPathOf out (filepathJoin d2 name))
      (FS.outFiles
        { fs with dirs := mkdirAllDirs out fs.dirs
                  outFiles := (outPathOf out (filepathJoin d1 name), img) :: fs.outFiles })).isSome
      = true := by
    rw [← hpath]
    show (lookupOut (outPathOf out (filepathJoin d1 name))
      ((outPathOf out (filepathJoin d1 name), img) :: fs.outFiles)).isSome = true
    simp [lookupOut]
  have hstep2 := AVIFToPNG_exists (filepathJoin d2 name) out false
    { fs with dirs := mkdirAllDirs out fs.dirs
              outFiles := (outPathOf out (filepathJoin d1 name), img) :: fs.outFiles }
    hdec2' hm2 hocc2
  refine ⟨hp1, hpath, img, hsrc, ?_, ?_⟩
  · simp only [processFiles, hstep1, hstep2]
  · simp only [processFiles, hstep1, hstep2]
    simp [lookupOut]

/-- Witness for C3: `input/a.avif` and `input/sub/a.avif` both map to
`out/a.png`; one success, one skip. -/
theorem flattening_collision_witness :
    outPathOf "out" (filepathJoin "input" "a.avif")
        = filepathJoin "out" (trimSuffix "a.avif" (filepathExt "a.avif") ++ ".png") ∧
    outPathOf "out" (filepathJoin "input" "a.avif")
        = outPathOf "out" (filepathJoin "input/sub" "a.avif") ∧
    ∃ img, okFS.source (filepathJoin "input" "a.avif") = .image img ∧
      (processFiles [filepathJoin "input" "a.avif", filepathJoin "input/sub" "a.avif"]
          "out" ⟨2, 0, 0, 0, []⟩ okFS []).1
        = { (⟨2, 0, 0, 0, []⟩ : ConversionResult) with successful := 0 + 1, skipped := 0 + 1 } ∧
      lookupOut (outPathOf "out" (filepathJoin "input" "a.avif"))
          (processFiles [filepathJoin "input" "a.avif", filepathJoin "input/sub" "a.avif"]
            "out" ⟨2, 0, 0, 0, []⟩ okFS []).2.1.outFiles
        = some img :=
  flattening_collision "out" "input" "input/sub" "a.avif" okFS ⟨2, 0, 0, 0, []⟩ []
    (by decide) (by decide) (by decide) (by decide) (by decide) (by decide) (by decide)

/-- C4 counterexample: a batch holding one corrupt file fails it on
both runs, so the second run reports `skipped = 0` while
`totalFiles = 1` — refuting "on the second run, `skipped = total`". -/
theorem convertDirectory_second_run_not_all_skipped_cex :
    (ConvertDirectory "in" badTree "out" false false
        (ConvertDirectory "in" badTree "out" false false badFS).2.1).1
      = .ok { totalFiles := 1, successful := 0, skipped := 0, failed := 1,
              errors := [⟨"in/bad.avif", "failed to decode AVIF image: bad"⟩] }
    ∧ (0 : Nat) ≠ 1 :=
  ⟨by decide, by decide⟩

/-- C4 (amended): if the first run completed without structural error
and with `failed = 0`, then running the batch again against the same
input tree and output directory yields `successful = 0`,
`skipped = total`, `failed = 0`, with the same total. -/
theorem convertDirectory_idempotent_of_no_failures
    (inputDir outputDir : String) (input : FTree) (recursive verbose : Bool)
    (fs : FS) (r1 : ConversionResult)
    (h1 : (ConvertDirectory inputDir input outputDir recursive verbose fs).1 = .ok r1)
    (hf : r1.failed = 0) :
    ∃ r2, (ConvertDirectory inputDir input outputDir recursive verbose
        (ConvertDirectory inputDir input outputDir recursive verbose fs).2.1).1 = .ok r2 ∧
      r2.successful = 0 ∧ r2.skipped = r2.totalFiles ∧ r2.failed = 0 ∧
      r2.totalFiles = r1.totalFiles := by
  cases hc : collectAVIFFiles inputDir input recursive with
  | error e => simp [ConvertDirectory, hc] at h1
  | ok files =>
    by_cases hne : files.length = 0
    · have hnil := List.length_eq_zero.mp hne
      subst hnil
      have hcd := convertDirectory_nil_collect inputDir outputDir input recursive verbose fs hc
      rw [hcd] at h1
      have hr1 := Except.ok.inj h1
      refine ⟨{ totalFiles := 0, successful := 0, skipped := 0, failed := 0, errors := [] },
        ?_, rfl, rfl, rfl, by rw [← hr1]⟩
      rw [hcd]
      show (ConvertDirectory inputDir input outputDir recursive verbose fs).1
        = Except.ok { totalFiles := 0, successful := 0, skipped := 0, failed := 0, errors := [] }
      rw [hcd]
    · rw [ConvertDirectory_eq_of_ok inputDir outputDir input recursive verbose fs files hc hne]
        at h1
      have hr1 := Except.ok.inj h1
      have hfail : (processFiles files outputDir (initResult files) fs []).1.failed
          = (initResult files).failed := by
        rw [hr1, hf, initResult_failed]
      have hpost := processFiles_no_new_failures outputDir files fs (initResult files) [] hfail
      have hfr := processFiles_frame outputDir files fs (initResult files) []
      have hall : ∀ q ∈ files,
          sourceDecodes (processFiles files outputDir (initResult files) fs []).2.1 q = true ∧
          FS.mkdirAllErr (processFiles files outputDir (initResult files) fs []).2.1 outputDir
            = none ∧
          (lookupOut (outPathOf outputDir q)
            (FS.outFiles (processFiles files outputDir (initResult files) fs []).2.1)).isSome
            = true := by
        intro q hq
        obtain ⟨a, b, c⟩ := hpost q hq
        refine ⟨?_, ?_, c⟩
        · simp only [sourceDecodes, decodeResult] at a ⊢
          rw [hfr.1]
          exact a
        · rw [hfr.2]
          exact b
      obtain ⟨c1, c2, c3, c4, c5⟩ := processFiles_all_occupied outputDir files
        (processFiles files outputDir (initResult files) fs []).2.1 (initResult files) [] hall
      refine ⟨(processFiles files outputDir (initResult files)
          (processFiles files outputDir (initResult files) fs []).2.1 []).1,
        ?_, ?_, ?_, ?_, ?_⟩
      · rw [ConvertDirectory_eq_of_ok inputDir outputDir input recursive verbose fs files hc hne]
        show (ConvertDirectory inputDir input outputDir recursive verbose
          (processFiles files outputDir (initResult files) fs []).2.1).1 = _
        rw [ConvertDirectory_eq_of_ok inputDir outputDir input recursive verbose
          (processFiles files outputDir (initResult files) fs []).2.1 files hc hne]
      · exact c1.trans (initResult_successful files)
      · rw [c2, c5, initResult_skipped, initResult_totalFiles]
        omega
      · exact c3.trans (initResult_failed files)
      · rw [c5, initResult_totalFiles, ← hr1]
        exact ((processFiles_counts outputDir files fs (initResult files) []).1.trans
          (initResult_totalFiles files)).symm

/-- Witness for C4 (amended): after a clean first run over `in/a.avif`,
the second run skips its single file. -/
theorem convertDirectory_idempotent_witness :
    ∃ r2, (ConvertDirectory "in" okTree "out" false false
        (ConvertDirectory "in" okTree "out" false false okFS).2.1).1 = .ok r2 ∧
      r2.successful = 0 ∧ r2.skipped = r2.totalFiles ∧ r2.failed = 0 ∧
      r2.totalFiles = (⟨1, 1, 0, 0, []⟩ : ConversionResult).totalFiles :=
  convertDirectory_idempotent_of_no_failures "in" "out" okTree false false okFS
    ⟨1, 1, 0, 0, []⟩ (by decide) rfl

end Avif2png
